import Mathlib

/-!
Verification of the shop-the-video screen-sharing broker.

This file gives a shallow embedding of the two server components of the
repository and proves (or refutes) the behavioural claims made about them:

* `src/mcp-server/dist/server.js` — the Socket.IO duplex broker
  (session registry, `join-session`, `screen-data`, `request-ocr`,
  disconnect handling).
* `src/mcp-server/src/vygil-mcp-server.ts` — the stateless MCP tool server
  (`extract_text`, `log_activity`, metrics collector).

JavaScript strings that get sliced and spliced are modelled as `List Char`;
handlers become pure functions from an explicit registry state and the
inbound message to an ordered list of `Action`s (emits, OCR-engine
invocations, registry deletions) plus the successor state.  The OCR engine
(Tesseract) is an external effect and is passed in as an oracle parameter.
-/

namespace ShopTheVideo

/-- JavaScript string contents, modelled as a list of characters. -/
abbrev Str := List Char

/-- Embedding of the JavaScript `s.split(',')`: splits on every comma,
keeping empty segments, and yields `[[]]` on the empty string. -/
def splitComma : Str → List Str
  | [] => [[]]
  | c :: rest =>
    if c = ',' then [] :: splitComma rest
    else
      match splitComma rest with
      | [] => [[c]]
      | h :: t => (c :: h) :: t

/-- Everything after the first comma of the string (the whole string has no
comma → result is the empty string, matching the use sites below). -/
def afterFirstComma : Str → Str
  | [] => []
  | c :: rest => if c = ',' then rest else afterFirstComma rest

/-- Embedding of the JavaScript `String.prototype.trim`: removes leading and
trailing whitespace. -/
def trimWs (l : Str) : Str :=
  ((l.dropWhile Char.isWhitespace).reverse.dropWhile Char.isWhitespace).reverse

/-- Embedding of the JavaScript `s.split(/\s+/)`: maximal runs of whitespace
act as separators; a leading or trailing run contributes an empty token,
and the empty string yields `[[]]`. -/
def splitWsRuns : Str → List Str
  | [] => [[]]
  | c :: rest =>
    if Char.isWhitespace c then
      match rest with
      | [] => [[], []]
      | c2 :: _ =>
        if Char.isWhitespace c2 then splitWsRuns rest else [] :: splitWsRuns rest
    else
      match splitWsRuns rest with
      | [] => [[c]]
      | h :: t => (c :: h) :: t

/-- Word count exactly as computed in `vygil-mcp-server.ts` line 231:
`extractedText.split(/\s+/).filter(word => word.length > 0).length`. -/
def jsWordCount (l : Str) : Nat :=
  ((splitWsRuns l).filter (fun w => w.length > 0)).length

/-! ## The Socket.IO duplex broker (`dist/server.js`) -/

/-- One entry of the `activeSessions` table (`server.js` lines 25-30). -/
structure Session where
  id : String
  host : String
  viewers : List String
  startTime : Nat
deriving DecidableEq, Repr

/-- The `activeSessions` object: an insertion-ordered map from session id to
session (JavaScript objects iterate string keys in insertion order). -/
abbrev Registry := List (String × Session)

/-- Lookup `activeSessions[sessionId]` (first entry with the given key;
JavaScript object keys are unique, so first-match is exact). -/
def lookupSession : Registry → String → Option Session
  | [], _ => none
  | (k, s) :: rest, sid => if k = sid then some s else lookupSession rest sid

/-- Overwrite the entry stored under `sid`. -/
def updateSession : Registry → String → Session → Registry
  | [], _, _ => []
  | (k, s) :: rest, sid, s' =>
    if k = sid then (k, s') :: updateSession rest sid s'
    else (k, s) :: updateSession rest sid s'

/-- The part of a `screen-data` chunk the broker inspects: its `data`
property, which may be absent, a string, or some non-string value
(the broker forwards the rest of the chunk opaquely). -/
inductive ChunkData where
  | strVal (s : Str)
  | otherVal
deriving DecidableEq, Repr

/-- A streamed screen chunk as seen by the broker. -/
structure Chunk where
  data : Option ChunkData
deriving DecidableEq, Repr

/-- Payloads emitted by the broker, one constructor per object literal in
`server.js`.  The recorded fields are exactly the fields of the literal:
`errorEv` is `{message}`, `ocrResult` is `{sessionId, timestamp, text}`,
`sessionEnded` is `{message}`, and so on. -/
inductive EventMsg where
  | errorEv (message : String)
  | sessionCreated (sessionId : String)
  | sessionJoined (sessionId : String)
  | viewerJoined (viewerId : String)
  | screenDataEv (chunk : Chunk)
  | ocrResult (sessionId : String) (timestamp : Nat) (text : Str)
  | sessionEnded (message : String)
  | viewerLeft (viewerId : String)
deriving DecidableEq, Repr

/-- Observable steps a handler performs, in program order:
`emitConn c e` is `socket.emit`/`io.to(c).emit` to the single connection `c`;
`emitOthers sid sender e` is `socket.to(sid).emit`, reaching every subscriber
of room `sid` except `sender`; `emitRoom sid recips e` is `io.to(sid).emit`
with the room membership resolved to the explicit list `recips`;
`invokeOcr p` is the `Tesseract.recognize` call on payload `p`;
`deleteSession sid` is `delete activeSessions[sessionId]`. -/
inductive Action where
  | emitConn (conn : String) (ev : EventMsg)
  | emitOthers (sessionId : String) (sender : String) (ev : EventMsg)
  | emitRoom (sessionId : String) (recipients : List String) (ev : EventMsg)
  | invokeOcr (payload : Str)
  | deleteSession (sessionId : String)
deriving DecidableEq, Repr

/-- Outcome of one `Tesseract.recognize` call: resolves with extracted text,
or rejects (throws into the handler's catch block). -/
inductive OcrOutcome where
  | ok (text : Str)
  | fail
deriving DecidableEq, Repr

/-- The `create-session` handler (`server.js` lines 23-34); the fresh
`uuidv4()` and `Date.now()` are passed in as parameters. -/
def createSession (st : Registry) (connId sessionId : String) (now : Nat) :
    List Action × Registry :=
  ([.emitConn connId (.sessionCreated sessionId)],
   st ++ [(sessionId, { id := sessionId, host := connId, viewers := [], startTime := now })])

/-- The `join-session` handler (`server.js` lines 36-48): missing session →
`error` to the caller; otherwise `viewers.push(socket.id)` (an
unconditional append), then `session-joined` to the caller and
`viewer-joined` to the host. -/
def joinSession (st : Registry) (connId sessionId : String) :
    List Action × Registry :=
  match lookupSession st sessionId with
  | none => ([.emitConn connId (.errorEv "Session not found")], st)
  | some sess =>
      ([.emitConn connId (.sessionJoined sessionId),
        .emitConn sess.host (.viewerJoined connId)],
       updateSession st sessionId { sess with viewers := sess.viewers ++ [connId] })

/-- The data-URL stripping of the `screen-data` handler (`server.js`
lines 63-64): `parts.length > 1 ? parts[1] : parts[0]`. -/
def chunkPayload (s : Str) : Str :=
  let parts := splitComma s
  if parts.length > 1 then parts.getD 1 [] else parts.getD 0 []

/-- The `screen-data` handler (`server.js` lines 50-90): missing session →
`error`; otherwise the chunk is first re-broadcast to the rest of the room,
then, when `chunk.data` is a non-empty string whose stripped payload is
non-empty, OCR runs and the result (or the catch-block `error`) goes back
to the sender alone; a falsy or non-string `chunk.data` skips OCR
silently. -/
def screenData (st : Registry) (connId sessionId : String) (chunk : Chunk)
    (ocr : OcrOutcome) (now : Nat) : List Action × Registry :=
  match lookupSession st sessionId with
  | none => ([.emitConn connId (.errorEv "Session not found")], st)
  | some _ =>
      let bcast : Action := .emitOthers sessionId connId (.screenDataEv chunk)
      match chunk.data with
      | some (.strVal s) =>
          if s = [] then ([bcast], st)
          else if chunkPayload s = [] then
            ([bcast, .emitConn connId (.errorEv "Invalid image data")], st)
          else
            match ocr with
            | .ok t =>
                ([bcast, .invokeOcr (chunkPayload s),
                  .emitConn connId (.ocrResult sessionId now t)], st)
            | .fail =>
                ([bcast, .invokeOcr (chunkPayload s),
                  .emitConn connId (.errorEv "Failed to process OCR")], st)
      | _ => ([bcast], st)

/-- The `request-ocr` handler (`server.js` lines 92-122).  Note the stripping
is `imageData.split(',')[1]` — index 1 unconditionally, with no fallback to
`parts[0]`, so an input without a comma yields `undefined` (here `[]`) and
is rejected. -/
def requestOcr (st : Registry) (connId sessionId : String) (imageData : Str)
    (ocr : OcrOutcome) (now : Nat) : List Action × Registry :=
  match lookupSession st sessionId with
  | none => ([.emitConn connId (.errorEv "Session not found")], st)
  | some _ =>
      let base64Data := (splitComma imageData).getD 1 []
      if base64Data = [] then
        ([.emitConn connId (.errorEv "Invalid image data")], st)
      else
        match ocr with
        | .ok t =>
            ([.invokeOcr base64Data,
              .emitConn connId (.ocrResult sessionId now t)], st)
        | .fail =>
            ([.invokeOcr base64Data,
              .emitConn connId (.errorEv "Failed to perform OCR")], st)

/-- The disconnect handler (`server.js` lines 124-143), iterating the
registry in key order.  A session whose host is the disconnecting socket
gets `session-ended` emitted to the room and is then deleted; the room is
resolved to the distinct viewers still connected (the disconnecting socket
has already left its rooms).  A session merely containing the socket as a
viewer filters it out and notifies the host. -/
def disconnect : Registry → String → List Action × Registry
  | [], _ => ([], [])
  | (sid, sess) :: rest, connId =>
    if sess.host = connId then
      (.emitRoom sid ((sess.viewers.dedup).filter (· ≠ connId))
          (.sessionEnded "Host has disconnected") ::
         .deleteSession sid :: (disconnect rest connId).1,
       (disconnect rest connId).2)
    else if connId ∈ sess.viewers then
      (.emitConn sess.host (.viewerLeft connId) :: (disconnect rest connId).1,
       (sid, { sess with viewers := sess.viewers.filter (· ≠ connId) }) ::
         (disconnect rest connId).2)
    else
      ((disconnect rest connId).1, (sid, sess) :: (disconnect rest connId).2)

/-- Whether the emitted payload object carries a `success` field.  None of
the object literals in `server.js` does: `error` is `{message}`,
`session-created`/`session-joined` are `{sessionId}`, `viewer-joined`/
`viewer-left` are `{viewerId}`, `screen-data` is `{chunk}`, `ocr-result` is
`{sessionId, timestamp, text}`, `session-ended` is `{message}`. -/
def socketPayloadHasSuccess : EventMsg → Bool
  | .errorEv _ => false
  | .sessionCreated _ => false
  | .sessionJoined _ => false
  | .viewerJoined _ => false
  | .screenDataEv _ => false
  | .ocrResult _ _ _ => false
  | .sessionEnded _ => false
  | .viewerLeft _ => false

/-- Whether the emitted payload object carries a `timestamp` field; in
`server.js` only `ocr-result` does. -/
def socketPayloadHasTimestamp : EventMsg → Bool
  | .ocrResult _ _ _ => true
  | _ => false

/-- Action `a` delivers a `session-ended` event for session `sid` to the
connection `v`. -/
def deliversSessionEnded (v sid : String) : Action → Bool
  | .emitRoom sid' recips (.sessionEnded _) => sid' == sid && recips.contains v
  | _ => false

/-! ## The stateless MCP tool server (`src/vygil-mcp-server.ts`) -/

/-- Outcome of the Tesseract call inside `extract_text`: resolves with
`result.data.text` and `result.data.confidence` (engines report the latter
on a 0–100 scale), or rejects with an error message. -/
inductive EngineResult where
  | ok (text : Str) (confidence : ℚ)
  | engineError (msg : String)
deriving DecidableEq, Repr

/-- The JSON object serialized into an `extract_text` reply.  Success
replies (`vygil-mcp-server.ts` lines 219-236) carry `text`, `confidence`,
`processingTime` and the `metadata` fields; failure replies (lines 241-253)
carry only `error`; both carry `success` and `timestamp`.  Absent fields
are `none`. -/
structure ToolResponse where
  success : Bool
  text : Option Str := none
  confidence : Option ℚ := none
  processingTime : Option Nat := none
  timestamp : Nat
  textLength : Option Nat := none
  wordCount : Option Nat := none
  error : Option String := none
deriving DecidableEq, Repr

/-- One run of the `extract_text` tool: the reply plus whether the OCR
engine (`Tesseract.recognize`) was invoked during the run. -/
structure ExtractRun where
  resp : ToolResponse
  engineCalled : Bool
deriving DecidableEq, Repr

/-- Input normalization of `extract_text` (`vygil-mcp-server.ts` lines
192-198): with a comma present, `parts[1] || ''`; otherwise the raw
input. -/
def jsNormalize (s : Str) : Str :=
  if s.contains ',' then (splitComma s).getD 1 [] else s

/-- The `extract_text` tool handler (`vygil-mcp-server.ts` lines 180-254).
An empty normalized payload throws `Invalid image data format...` before the
engine runs; otherwise `Buffer.from(base64Data, 'base64')` (which in Node is
lenient and never throws) feeds the engine, whose result is trimmed and
whose 0-100 confidence is divided by 100; any thrown error is caught and
wrapped into a failure reply. -/
def extractText (imageData : Str) (engine : EngineResult) (now dur : Nat) :
    ExtractRun :=
  let base64Data := jsNormalize imageData
  if base64Data = [] then
    { resp := { success := false,
                error := some "Invalid image data format. Expected base64 string or data URL.",
                timestamp := now },
      engineCalled := false }
  else
    match engine with
    | .ok t c =>
        let trimmed := trimWs t
        { resp := { success := true,
                    text := some trimmed,
                    confidence := some (c / 100),
                    processingTime := some dur,
                    timestamp := now,
                    textLength := some trimmed.length,
                    wordCount := some (jsWordCount trimmed),
                    error := none },
          engineCalled := true }
    | .engineError m =>
        { resp := { success := false, error := some m, timestamp := now },
          engineCalled := true }

/-- Outcome of the `screen_capture` try block: the mock implementation
succeeds, or something thrown is caught with a message. -/
inductive CaptureOutcome where
  | ok
  | threw (msg : String)
deriving DecidableEq, Repr

/-- The JSON object serialized into a `screen_capture` reply.  Success
replies (`vygil-mcp-server.ts` lines 133-150) carry `imageData`,
`processingTime` and the `metadata` block; failure replies (lines 155-166)
carry only `error`; both carry `success` and `timestamp`.  Absent fields
are `none`. -/
structure CaptureResponse where
  success : Bool
  imageData : Option Str := none
  processingTime : Option Nat := none
  timestamp : Nat
  error : Option String := none
deriving DecidableEq, Repr

/-- The `screen_capture` tool handler (`vygil-mcp-server.ts` lines
118-168): the MVP mock returns the fixed `mock_base64_image_data` payload
on success; a caught error is wrapped into a failure envelope. -/
def screenCapture (outcome : CaptureOutcome) (now dur : Nat) :
    CaptureResponse :=
  match outcome with
  | .ok =>
      { success := true,
        imageData := some "mock_base64_image_data".toList,
        processingTime := some dur,
        timestamp := now,
        error := none }
  | .threw m =>
      { success := false, error := some m, timestamp := now }

/-- Well-formed base64 in the sense of the spec's input-normalization
contract (standard alphabet, length a multiple of four); the code itself
has no decode-failure path, so this predicate exists only to state claims
about inputs that "fail base64 decoding". -/
def specValidBase64 (s : Str) : Bool :=
  s.all (fun c => c.isAlphanum || c = '+' || c = '/' || c = '=') &&
    s.length % 4 = 0

/-- The `entry` object built by `log_activity` (`vygil-mcp-server.ts`
lines 274-281). -/
structure LogEntry where
  description : Str
  confidence : ℚ
  screen_text_length : ℚ
  processing_time : ℚ
  id : String
  timestamp : Nat
deriving DecidableEq, Repr

/-- The `log_activity` reply (`vygil-mcp-server.ts` lines 285-298):
`{success: true, logged_at, activity_id, entry}`. -/
structure LogResponse where
  success : Bool
  logged_at : Nat
  activity_id : String
  entry : LogEntry
deriving DecidableEq, Repr

/-- The `log_activity` tool handler (`vygil-mcp-server.ts` lines 269-298);
the destructuring defaults `confidence = 0, screen_text_length = 0,
processing_time = 0` apply whenever the optional field is absent. -/
def logActivity (description : Str)
    (confidence screen_text_length processing_time : Option ℚ) (now : Nat) :
    LogResponse :=
  let entry : LogEntry :=
    { description := description,
      confidence := confidence.getD 0,
      screen_text_length := screen_text_length.getD 0,
      processing_time := processing_time.getD 0,
      id := "activity_" ++ toString now,
      timestamp := now }
  { success := true,
    logged_at := now,
    activity_id := entry.id,
    entry := entry }

/-- The numeric counters of `MetricsCollector` (`vygil-mcp-server.ts`
lines 72-101) plus the overwritten `lastRequest` timestamp. -/
structure Metrics where
  requests : Nat
  errors : Nat
  screenCaptures : Nat
  ocrRequests : Nat
  activityLogs : Nat
  lastRequest : Option Nat
deriving DecidableEq, Repr

/-- One tool invocation, with whether its try-block failed (the catch path
increments `errors`; `log_activity` has no failure path). -/
inductive ToolCall where
  | screenCaptureCall (failed : Bool) (now : Nat)
  | extractTextCall (failed : Bool) (now : Nat)
  | logActivityCall (now : Nat)
deriving DecidableEq, Repr

/-- Metric effect of one tool invocation: every tool first increments
`requests` and its own counter and overwrites `lastRequest`
(`vygil-mcp-server.ts` lines 119-122, 181-184, 270-272); the catch paths
additionally increment `errors` (lines 152, 238). -/
def metricsStep (m : Metrics) (t : ToolCall) : Metrics :=
  match t with
  | .screenCaptureCall failed now =>
      let m1 := { m with requests := m.requests + 1,
                         screenCaptures := m.screenCaptures + 1,
                         lastRequest := some now }
      if failed then { m1 with errors := m1.errors + 1 } else m1
  | .extractTextCall failed now =>
      let m1 := { m with requests := m.requests + 1,
                         ocrRequests := m.ocrRequests + 1,
                         lastRequest := some now }
      if failed then { m1 with errors := m1.errors + 1 } else m1
  | .logActivityCall now =>
      { m with requests := m.requests + 1,
               activityLogs := m.activityLogs + 1,
               lastRequest := some now }

/-- Run a sequence of tool invocations against the collector. -/
def runCalls (m : Metrics) (l : List ToolCall) : Metrics :=
  l.foldl metricsStep m

/-- Pointwise order on the five counters. -/
def metricsLe (a b : Metrics) : Prop :=
  a.requests ≤ b.requests ∧ a.errors ≤ b.errors ∧
  a.screenCaptures ≤ b.screenCaptures ∧ a.ocrRequests ≤ b.ocrRequests ∧
  a.activityLogs ≤ b.activityLogs

/-- The per-tool counter belonging to an invocation kind. -/
def ownCounter : ToolCall → Metrics → Nat
  | .screenCaptureCall _ _, m => m.screenCaptures
  | .extractTextCall _ _, m => m.ocrRequests
  | .logActivityCall _, m => m.activityLogs

/-! ## Supporting lemmas -/

lemma splitComma_ne_nil (s : Str) : splitComma s ≠ [] := by
  induction s with
  | nil => simp [splitComma]
  | cons c rest ih =>
    simp only [splitComma]
    split
    · simp
    · split
      · simp
      · simp

lemma splitComma_getD_one_of_afterFirstComma_nil :
    ∀ s : Str, afterFirstComma s = [] → (splitComma s).getD 1 [] = [] := by
  intro s
  induction s with
  | nil => intro _; simp [splitComma]
  | cons c rest ih =>
    intro h
    by_cases hc : c = ','
    · subst hc
      simp only [afterFirstComma, if_pos rfl] at h
      subst h
      simp [splitComma]
    · simp only [afterFirstComma, if_neg hc] at h
      have hrest := ih h
      simp only [splitComma, if_neg hc]
      rcases hsplit : splitComma rest with _ | ⟨hd, tl⟩
      · exact absurd hsplit (splitComma_ne_nil rest)
      · rw [hsplit] at hrest
        simpa using hrest

lemma lookupSession_update_some {st : Registry} {sid : String} {sess : Session}
    (s' : Session) (h : lookupSession st sid = some sess) :
    lookupSession (updateSession st sid s') sid = some s' := by
  induction st with
  | nil => simp [lookupSession] at h
  | cons p rest ih =>
    obtain ⟨k, s⟩ := p
    by_cases hp : k = sid
    · simp [lookupSession, updateSession, hp]
    · simp only [lookupSession, if_neg hp] at h
      simpa [lookupSession, updateSession, hp] using ih h

lemma lookupSession_eq_none_of_not_mem {st : Registry} {sid : String}
    (h : sid ∉ st.map Prod.fst) : lookupSession st sid = none := by
  induction st with
  | nil => simp [lookupSession]
  | cons p rest ih =>
    obtain ⟨k, s⟩ := p
    simp only [List.map_cons, List.mem_cons, not_or] at h
    have hk : k ≠ sid := fun hks => h.1 hks.symm
    simp [lookupSession, hk, ih h.2]

lemma disconnect_entries_clean :
    ∀ (st : Registry) (connId : String) (p : String × Session),
      p ∈ (disconnect st connId).2 → p.2.host ≠ connId ∧ connId ∉ p.2.viewers := by
  intro st connId
  induction st with
  | nil => intro p hp; simp [disconnect] at hp
  | cons q rest ih =>
    obtain ⟨sid, sess⟩ := q
    intro p hp
    by_cases hh : sess.host = connId
    · simp only [disconnect, if_pos hh] at hp
      exact ih p hp
    · by_cases hv : connId ∈ sess.viewers
      · simp only [disconnect, if_neg hh, if_pos hv, List.mem_cons] at hp
        rcases hp with hp | hp
        · subst hp
          refine ⟨hh, ?_⟩
          simp [List.mem_filter]
        · exact ih p hp
      · simp only [disconnect, if_neg hh, if_neg hv, List.mem_cons] at hp
        rcases hp with hp | hp
        · subst hp; exact ⟨hh, hv⟩
        · exact ih p hp

lemma disconnect_eq_of_clean :
    ∀ (st : Registry) (connId : String),
      (∀ p ∈ st, p.2.host ≠ connId ∧ connId ∉ p.2.viewers) →
      disconnect st connId = ([], st) := by
  intro st connId
  induction st with
  | nil => intro _; simp [disconnect]
  | cons q rest ih =>
    obtain ⟨sid, sess⟩ := q
    intro h
    have hq := h (sid, sess) (List.mem_cons_self _ _)
    have hrest := ih (fun p hp => h p (List.mem_cons_of_mem _ hp))
    simp [disconnect, hq.1, hq.2, hrest]

lemma disconnect_idem (st : Registry) (connId : String) :
    disconnect (disconnect st connId).2 connId = ([], (disconnect st connId).2) :=
  disconnect_eq_of_clean _ _ (fun p hp => disconnect_entries_clean st connId p hp)

lemma disconnect_keys_subset (st : Registry) (connId : String) :
    ((disconnect st connId).2.map Prod.fst) ⊆ st.map Prod.fst := by
  induction st with
  | nil => simp [disconnect]
  | cons q rest ih =>
    obtain ⟨sid, sess⟩ := q
    intro x hx
    by_cases hh : sess.host = connId
    · simp only [disconnect, if_pos hh] at hx
      exact List.mem_cons_of_mem _ (ih hx)
    · by_cases hv : connId ∈ sess.viewers
      · simp only [disconnect, if_neg hh, if_pos hv, List.map_cons, List.mem_cons] at hx
        rcases hx with hx | hx
        · simp [hx]
        · exact List.mem_cons_of_mem _ (ih hx)
      · simp only [disconnect, if_neg hh, if_neg hv, List.map_cons, List.mem_cons] at hx
        rcases hx with hx | hx
        · simp [hx]
        · exact List.mem_cons_of_mem _ (ih hx)

lemma disconnect_countP_zero (st : Registry) (connId v sid : String)
    (h : sid ∉ st.map Prod.fst) :
    (disconnect st connId).1.countP (fun a => deliversSessionEnded v sid a) = 0 := by
  induction st with
  | nil => simp [disconnect]
  | cons q rest ih =>
    obtain ⟨sid0, sess0⟩ := q
    simp only [List.map_cons, List.mem_cons, not_or] at h
    have hne : sid0 ≠ sid := fun he => h.1 he.symm
    have hrest := ih h.2
    by_cases hh : sess0.host = connId
    · have h1 : deliversSessionEnded v sid
          (Action.emitRoom sid0 ((sess0.viewers.dedup).filter (· ≠ connId))
            (EventMsg.sessionEnded "Host has disconnected")) = false := by
        simp [deliversSessionEnded, hne]
      have h2 : deliversSessionEnded v sid (Action.deleteSession sid0) = false := rfl
      simp only [disconnect, if_pos hh, List.countP_cons, h1, h2, hrest]
      simp
    · by_cases hv : connId ∈ sess0.viewers
      · have h3 : deliversSessionEnded v sid
            (Action.emitConn sess0.host (EventMsg.viewerLeft connId)) = false := rfl
        simp only [disconnect, if_neg hh, if_pos hv, List.countP_cons, h3, hrest]
        simp
      · simpa [disconnect, if_neg hh, if_neg hv] using hrest

lemma disconnect_count_one :
    ∀ (st : Registry) (connId sid : String) (sess : Session),
      (st.map Prod.fst).Nodup →
      (sid, sess) ∈ st →
      sess.host = connId →
      ∀ v, v ∈ sess.viewers → v ≠ connId →
        (disconnect st connId).1.countP (fun a => deliversSessionEnded v sid a) = 1 := by
  intro st connId sid sess
  induction st with
  | nil => intro _ hmem; simp at hmem
  | cons q rest ih =>
    obtain ⟨sid0, sess0⟩ := q
    intro hnd hmem hhost v hv hne
    simp only [List.map_cons, List.nodup_cons] at hnd
    obtain ⟨hnotin, hndrest⟩ := hnd
    rcases List.mem_cons.mp hmem with heq | hmem'
    · injection heq with h1 h2
      subst h1; subst h2
      have hzero := disconnect_countP_zero rest connId v sid hnotin
      have hroom : deliversSessionEnded v sid
          (Action.emitRoom sid ((sess.viewers.dedup).filter (· ≠ connId))
            (EventMsg.sessionEnded "Host has disconnected")) = true := by
        simp [deliversSessionEnded, List.mem_filter, List.mem_dedup, hv, hne]
      have hdel : deliversSessionEnded v sid (Action.deleteSession sid) = false := rfl
      simp only [disconnect, if_pos hhost, List.countP_cons, hroom, hdel, hzero]
      simp
    · have hsidmem : sid ∈ rest.map Prod.fst :=
        List.mem_map.mpr ⟨(sid, sess), hmem', rfl⟩
      have hne0 : sid0 ≠ sid := fun he => (he ▸ hnotin) hsidmem
      have hih := ih hndrest hmem' hhost v hv hne
      by_cases hh : sess0.host = connId
      · have h1 : deliversSessionEnded v sid
            (Action.emitRoom sid0 ((sess0.viewers.dedup).filter (· ≠ connId))
              (EventMsg.sessionEnded "Host has disconnected")) = false := by
          simp [deliversSessionEnded, hne0]
        have h2 : deliversSessionEnded v sid (Action.deleteSession sid0) = false := rfl
        simp only [disconnect, if_pos hh, List.countP_cons, h1, h2, hih]
        simp
      · by_cases hv0 : connId ∈ sess0.viewers
        · have h3 : deliversSessionEnded v sid
              (Action.emitConn sess0.host (EventMsg.viewerLeft connId)) = false := rfl
          simp only [disconnect, if_neg hh, if_pos hv0, List.countP_cons, h3, hih]
          simp
        · simpa [disconnect, if_neg hh, if_neg hv0] using hih

lemma disconnect_decomp :
    ∀ (st : Registry) (connId sid : String) (sess : Session),
      (sid, sess) ∈ st → sess.host = connId →
      ∃ pre post, (disconnect st connId).1 =
        pre ++ Action.emitRoom sid ((sess.viewers.dedup).filter (· ≠ connId))
                 (EventMsg.sessionEnded "Host has disconnected") ::
               Action.deleteSession sid :: post := by
  intro st connId sid sess
  induction st with
  | nil => intro hmem; simp at hmem
  | cons q rest ih =>
    obtain ⟨sid0, sess0⟩ := q
    intro hmem hhost
    rcases List.mem_cons.mp hmem with heq | hmem'
    · injection heq with h1 h2
      subst h1; subst h2
      refine ⟨[], (disconnect rest connId).1, ?_⟩
      simp [disconnect, hhost]
    · obtain ⟨pre, post, hpp⟩ := ih hmem' hhost
      by_cases hh : sess0.host = connId
      · refine ⟨Action.emitRoom sid0 ((sess0.viewers.dedup).filter (· ≠ connId))
            (EventMsg.sessionEnded "Host has disconnected") ::
            Action.deleteSession sid0 :: pre, post, ?_⟩
        simp [disconnect, if_pos hh, hpp]
      · by_cases hv0 : connId ∈ sess0.viewers
        · refine ⟨Action.emitConn sess0.host (EventMsg.viewerLeft connId) :: pre, post, ?_⟩
          simp [disconnect, if_neg hh, if_pos hv0, hpp]
        · refine ⟨pre, post, ?_⟩
          simp [disconnect, if_neg hh, if_neg hv0, hpp]

lemma disconnect_lookup_none :
    ∀ (st : Registry) (connId sid : String) (sess : Session),
      (st.map Prod.fst).Nodup → (sid, sess) ∈ st → sess.host = connId →
      lookupSession (disconnect st connId).2 sid = none := by
  intro st connId sid sess
  induction st with
  | nil => intro _ hmem; simp at hmem
  | cons q rest ih =>
    obtain ⟨sid0, sess0⟩ := q
    intro hnd hmem hhost
    simp only [List.map_cons, List.nodup_cons] at hnd
    obtain ⟨hnotin, hndrest⟩ := hnd
    rcases List.mem_cons.mp hmem with heq | hmem'
    · injection heq with h1 h2
      subst h1; subst h2
      have hsub : sid ∉ ((disconnect rest connId).2.map Prod.fst) :=
        fun hx => hnotin (disconnect_keys_subset rest connId hx)
      simp only [disconnect, if_pos hhost]
      exact lookupSession_eq_none_of_not_mem hsub
    · have hsidmem : sid ∈ rest.map Prod.fst :=
        List.mem_map.mpr ⟨(sid, sess), hmem', rfl⟩
      have hne0 : sid0 ≠ sid := fun he => (he ▸ hnotin) hsidmem
      have hih := ih hndrest hmem' hhost
      by_cases hh : sess0.host = connId
      · simpa [disconnect, if_pos hh] using hih
      · by_cases hv0 : connId ∈ sess0.viewers
        · simp [disconnect, if_neg hh, if_pos hv0, lookupSession, hne0, hih]
        · simp [disconnect, if_neg hh, if_neg hv0, lookupSession, hne0, hih]

lemma metricsStep_le (m : Metrics) (t : ToolCall) : metricsLe m (metricsStep m t) := by
  cases t with
  | screenCaptureCall failed now =>
    cases failed <;> simp [metricsStep, metricsLe]
  | extractTextCall failed now =>
    cases failed <;> simp [metricsStep, metricsLe]
  | logActivityCall now =>
    simp [metricsStep, metricsLe]

lemma metricsLe_trans {a b c : Metrics} (h1 : metricsLe a b) (h2 : metricsLe b c) :
    metricsLe a c := by
  obtain ⟨r1, e1, s1, o1, l1⟩ := h1
  obtain ⟨r2, e2, s2, o2, l2⟩ := h2
  exact ⟨r1.trans r2, e1.trans e2, s1.trans s2, o1.trans o2, l1.trans l2⟩

lemma runCalls_le : ∀ (l : List ToolCall) (m : Metrics), metricsLe m (runCalls m l) := by
  intro l
  induction l with
  | nil => intro m; simp [runCalls, metricsLe]
  | cons t rest ih =>
    intro m
    have h1 := metricsStep_le m t
    have h2 := ih (metricsStep m t)
    exact metricsLe_trans h1 h2

lemma jsWordCount_eq_filter_ne_nil (l : Str) :
    jsWordCount l = ((splitWsRuns l).filter (fun w => w ≠ [])).length := by
  unfold jsWordCount
  congr 1
  apply List.filter_congr
  intro w _
  simp [List.length_pos]

/-! ## Claim theorems -/

/-- Claim C1: on `screen-data` for a registered session whose chunk payload
reaches the OCR step, the raw chunk is re-broadcast to every other
subscriber of the session's room strictly before the OCR engine is
invoked; on success the `ocr-result` goes to the originating connection
only (it is never broadcast), on failure an `error` event goes to the
originator only, and in both cases the registry — and in particular the
session — is left untouched. -/
theorem screenData_broadcast_before_ocr
    (st : Registry) (connId sid : String) (sess : Session) (chunk : Chunk)
    (s : Str) (ocr : OcrOutcome) (now : Nat)
    (hlook : lookupSession st sid = some sess)
    (hdata : chunk.data = some (ChunkData.strVal s))
    (hs : s ≠ [])
    (hp : chunkPayload s ≠ []) :
    (screenData st connId sid chunk ocr now).2 = st ∧
    lookupSession (screenData st connId sid chunk ocr now).2 sid = some sess ∧
    (∀ t, ocr = OcrOutcome.ok t →
       (screenData st connId sid chunk ocr now).1 =
         [Action.emitOthers sid connId (EventMsg.screenDataEv chunk),
          Action.invokeOcr (chunkPayload s),
          Action.emitConn connId (EventMsg.ocrResult sid now t)]) ∧
    (ocr = OcrOutcome.fail →
       (screenData st connId sid chunk ocr now).1 =
         [Action.emitOthers sid connId (EventMsg.screenDataEv chunk),
          Action.invokeOcr (chunkPayload s),
          Action.emitConn connId (EventMsg.errorEv "Failed to process OCR")]) := by
  cases ocr with
  | ok t0 =>
    refine ⟨?_, ?_, ?_, ?_⟩
    · simp [screenData, hlook, hdata, hs, hp]
    · simp [screenData, hlook, hdata, hs, hp]
    · intro t ht
      injection ht with h
      subst h
      simp [screenData, hlook, hdata, hs, hp]
    · intro h
      exact absurd h (by simp)
  | fail =>
    refine ⟨?_, ?_, ?_, ?_⟩
    · simp [screenData, hlook, hdata, hs, hp]
    · simp [screenData, hlook, hdata, hs, hp]
    · intro t ht
      exact absurd ht (by simp)
    · intro _
      simp [screenData, hlook, hdata, hs, hp]

/-- Witness for the C1 theorem: one-session registry, chunk data "a",
engine failure — the frame is still broadcast first and the error goes to
the host only. -/
theorem screenData_broadcast_before_ocr_witness :
    (screenData [("s", Session.mk "s" "h" ["v"] 0)] "h" "s"
        (Chunk.mk (some (ChunkData.strVal ['a']))) OcrOutcome.fail 4).2 =
      [("s", Session.mk "s" "h" ["v"] 0)] ∧
    lookupSession (screenData [("s", Session.mk "s" "h" ["v"] 0)] "h" "s"
        (Chunk.mk (some (ChunkData.strVal ['a']))) OcrOutcome.fail 4).2 "s" =
      some (Session.mk "s" "h" ["v"] 0) ∧
    (∀ t, OcrOutcome.fail = OcrOutcome.ok t →
       (screenData [("s", Session.mk "s" "h" ["v"] 0)] "h" "s"
           (Chunk.mk (some (ChunkData.strVal ['a']))) OcrOutcome.fail 4).1 =
         [Action.emitOthers "s" "h"
            (EventMsg.screenDataEv (Chunk.mk (some (ChunkData.strVal ['a'])))),
          Action.invokeOcr (chunkPayload ['a']),
          Action.emitConn "h" (EventMsg.ocrResult "s" 4 t)]) ∧
    (OcrOutcome.fail = OcrOutcome.fail →
       (screenData [("s", Session.mk "s" "h" ["v"] 0)] "h" "s"
           (Chunk.mk (some (ChunkData.strVal ['a']))) OcrOutcome.fail 4).1 =
         [Action.emitOthers "s" "h"
            (EventMsg.screenDataEv (Chunk.mk (some (ChunkData.strVal ['a'])))),
          Action.invokeOcr (chunkPayload ['a']),
          Action.emitConn "h" (EventMsg.errorEv "Failed to process OCR")]) :=
  screenData_broadcast_before_ocr [("s", Session.mk "s" "h" ["v"] 0)] "h" "s"
    (Session.mk "s" "h" ["v"] 0) (Chunk.mk (some (ChunkData.strVal ['a'])))
    ['a'] OcrOutcome.fail 4 (by decide) rfl (by decide) (by decide)

/-- Claim C4: on a valid input (non-empty normalized payload) with the
engine reporting text `t` and a confidence `c` on the usual 0-100 scale,
`extract_text` returns a success envelope whose text is the engine output
trimmed, whose confidence is `c / 100` and lies in `[0, 1]`, and whose
word count is the number of non-empty tokens of the trimmed text split on
runs of whitespace. -/
theorem extractText_success_envelope
    (img t : Str) (c : ℚ) (now dur : Nat)
    (hvalid : jsNormalize img ≠ [])
    (h0 : 0 ≤ c) (h100 : c ≤ 100) :
    (extractText img (EngineResult.ok t c) now dur).resp.success = true ∧
    (extractText img (EngineResult.ok t c) now dur).resp.text = some (trimWs t) ∧
    (extractText img (EngineResult.ok t c) now dur).resp.confidence =
      some (c / 100) ∧
    (0 : ℚ) ≤ c / 100 ∧ c / 100 ≤ 1 ∧
    (extractText img (EngineResult.ok t c) now dur).resp.wordCount =
      some (((splitWsRuns (trimWs t)).filter (fun w => w ≠ [])).length) := by
  have hdiv0 : (0 : ℚ) ≤ c / 100 := by positivity
  have hdiv1 : c / 100 ≤ 1 := by
    rw [div_le_one (by norm_num : (0 : ℚ) < 100)]
    exact h100
  refine ⟨?_, ?_, ?_, hdiv0, hdiv1, ?_⟩
  · simp [extractText, hvalid]
  · simp [extractText, hvalid]
  · simp [extractText, hvalid]
  · simp [extractText, hvalid, jsWordCount_eq_filter_ne_nil]

/-- Witness for the C4 theorem at input "a" with engine text " hi u " and
confidence 90. -/
theorem extractText_success_envelope_witness :
    (extractText ['a'] (EngineResult.ok [' ', 'h', 'i', ' ', 'u', ' '] 90) 2 3).resp.success = true ∧
    (extractText ['a'] (EngineResult.ok [' ', 'h', 'i', ' ', 'u', ' '] 90) 2 3).resp.text =
      some (trimWs [' ', 'h', 'i', ' ', 'u', ' ']) ∧
    (extractText ['a'] (EngineResult.ok [' ', 'h', 'i', ' ', 'u', ' '] 90) 2 3).resp.confidence =
      some ((90 : ℚ) / 100) ∧
    (0 : ℚ) ≤ (90 : ℚ) / 100 ∧ (90 : ℚ) / 100 ≤ 1 ∧
    (extractText ['a'] (EngineResult.ok [' ', 'h', 'i', ' ', 'u', ' '] 90) 2 3).resp.wordCount =
      some (((splitWsRuns (trimWs [' ', 'h', 'i', ' ', 'u', ' '])).filter
        (fun w => w ≠ [])).length) :=
  extractText_success_envelope ['a'] [' ', 'h', 'i', ' ', 'u', ' '] 90 2 3
    (by decide) (by norm_num) (by norm_num)

/-- Claim C5, counterexample: the code has no base64-decode-failure path.
The input "!!!!" is not well-formed base64, yet `extract_text` still
invokes the OCR engine on it (Node's lenient decoder never throws), and
with a succeeding engine the reply is even a success envelope — not an
`InvalidImageData` failure. -/
theorem extractText_lenient_decode_counterexample :
    specValidBase64 ['!', '!', '!', '!'] = false ∧
    (extractText ['!', '!', '!', '!'] (EngineResult.ok ['h', 'i'] 90) 5 1).engineCalled = true ∧
    (extractText ['!', '!', '!', '!'] (EngineResult.ok ['h', 'i'] 90) 5 1).resp.success = true := by
  refine ⟨by decide, rfl, rfl⟩

/-- Claim C5, amended: an input that is empty, or whose portion after the
first comma is empty, makes `extract_text` fail with the
`Invalid image data format` error without ever invoking the engine;
base64 decoding itself is lenient and cannot fail, so merely malformed
non-empty base64 is not rejected. -/
theorem extractText_invalid_input_no_engine
    (s : Str) (eng : EngineResult) (now dur : Nat)
    (h : s = [] ∨ (s.contains ',' = true ∧ afterFirstComma s = [])) :
    (extractText s eng now dur).engineCalled = false ∧
    (extractText s eng now dur).resp.success = false ∧
    (extractText s eng now dur).resp.error =
      some "Invalid image data format. Expected base64 string or data URL." := by
  have hb : jsNormalize s = [] := by
    rcases h with h | ⟨h1, h2⟩
    · subst h
      simp [jsNormalize]
    · simp only [jsNormalize, h1, if_true]
      exact splitComma_getD_one_of_afterFirstComma_nil s h2
  refine ⟨?_, ?_, ?_⟩ <;> simp [extractText, hb]

/-- Witness for the amended C5 theorem at the empty input. -/
theorem extractText_invalid_input_no_engine_witness :
    (extractText [] (EngineResult.engineError "boom") 1 2).engineCalled = false ∧
    (extractText [] (EngineResult.engineError "boom") 1 2).resp.success = false ∧
    (extractText [] (EngineResult.engineError "boom") 1 2).resp.error =
      some "Invalid image data format. Expected base64 string or data URL." :=
  extractText_invalid_input_no_engine [] (EngineResult.engineError "boom") 1 2
    (Or.inl rfl)

/-- Claim C9, counterexample: a failure produced on the duplex transport is
not wrapped in the uniform envelope.  `join-session` on an unknown session
emits an `error` event whose payload is only `{message}`: it carries no
`success` boolean and no timestamp. -/
theorem socket_error_event_not_enveloped :
    joinSession [] "c" "nope" =
      ([Action.emitConn "c" (EventMsg.errorEv "Session not found")], []) ∧
    socketPayloadHasSuccess (EventMsg.errorEv "Session not found") = false ∧
    socketPayloadHasTimestamp (EventMsg.errorEv "Session not found") = false :=
  ⟨rfl, rfl, rfl⟩

/-- Claim C9, amended: responses of the stateless tool transport are
uniformly enveloped — every `screen_capture` and `extract_text` reply
carries a timestamp and has an error string exactly when `success` is
false and a result payload exactly when it is true, and every
`log_activity` reply has `success = true` with a timestamp — but the
duplex transport's events are not enveloped: no socket payload carries a
`success` field and its `error` payloads carry no timestamp. -/
theorem envelope_uniform_tools_not_socket :
    (∀ (o : CaptureOutcome) (now dur : Nat),
       ((screenCapture o now dur).error.isNone =
          (screenCapture o now dur).success) ∧
       ((screenCapture o now dur).imageData.isSome =
          (screenCapture o now dur).success) ∧
       (screenCapture o now dur).timestamp = now) ∧
    (∀ (img : Str) (eng : EngineResult) (now dur : Nat),
       ((extractText img eng now dur).resp.error.isNone =
          (extractText img eng now dur).resp.success) ∧
       ((extractText img eng now dur).resp.text.isSome =
          (extractText img eng now dur).resp.success) ∧
       (extractText img eng now dur).resp.timestamp = now) ∧
    (∀ (d : Str) (c stl pt : Option ℚ) (now : Nat),
       (logActivity d c stl pt now).success = true ∧
       (logActivity d c stl pt now).logged_at = now) ∧
    (∀ ev : EventMsg, socketPayloadHasSuccess ev = false) ∧
    (∀ m : String, socketPayloadHasTimestamp (EventMsg.errorEv m) = false) := by
  refine ⟨?_, ?_, ?_, ?_, ?_⟩
  · intro o now dur
    cases o <;> simp [screenCapture]
  · intro img eng now dur
    by_cases hb : jsNormalize img = []
    · simp [extractText, hb]
    · cases eng <;> simp [extractText, hb]
  · intro d c stl pt now
    exact ⟨rfl, rfl⟩
  · intro ev
    cases ev <;> rfl
  · intro m
    rfl

/-- Claim C10: a `screen-data` message on a registered session whose chunk
has no `data` field, or a non-string one, is still broadcast to the other
subscribers, but the OCR step is skipped silently: the sender gets neither
an `ocr-result` nor an `error` event, and the registry is unchanged. -/
theorem screenData_nonstring_silent
    (st : Registry) (connId sid : String) (sess : Session) (chunk : Chunk)
    (ocr : OcrOutcome) (now : Nat)
    (hlook : lookupSession st sid = some sess)
    (hdata : chunk.data = none ∨ chunk.data = some ChunkData.otherVal) :
    screenData st connId sid chunk ocr now =
      ([Action.emitOthers sid connId (EventMsg.screenDataEv chunk)], st) := by
  rcases hdata with h | h <;> simp [screenData, hlook, h]

/-- Witness for the C10 theorem: chunk without a `data` field. -/
theorem screenData_nonstring_silent_witness :
    screenData [("s", Session.mk "s" "h" ["v"] 0)] "h" "s" (Chunk.mk none)
        OcrOutcome.fail 3 =
      ([Action.emitOthers "s" "h" (EventMsg.screenDataEv (Chunk.mk none))],
       [("s", Session.mk "s" "h" ["v"] 0)]) :=
  screenData_nonstring_silent [("s", Session.mk "s" "h" ["v"] 0)] "h" "s"
    (Session.mk "s" "h" ["v"] 0) (Chunk.mk none) OcrOutcome.fail 3
    (by decide) (Or.inl rfl)

/-- Claim C2, counterexample: the `join-session` handler is not idempotent.
Starting from a registry with one empty session, two `join-session` calls
with the same viewer id "v" leave the viewer list `["v", "v"]`: the viewer
id occurs twice, so its count is not at most one. -/
theorem joinSession_duplicate_viewer_counterexample :
    lookupSession
        (joinSession (joinSession [("s", Session.mk "s" "h" [] 0)] "v" "s").2
          "v" "s").2 "s" =
      some (Session.mk "s" "h" ["v", "v"] 0) ∧
    ¬ (Session.mk "s" "h" ["v", "v"] 0).viewers.count "v" ≤ 1 := by
  decide

/-- Claim C2, amended: for every session present in the registry,
`join-session` is not an error but appends the viewer id to the session's
viewer list unconditionally, so a repeated join adds a duplicate and the
list counts join occurrences, not distinct viewer ids. -/
theorem joinSession_appends_viewer
    (st : Registry) (sid v : String) (sess : Session)
    (h : lookupSession st sid = some sess) :
    (joinSession st v sid).1 =
      [Action.emitConn v (EventMsg.sessionJoined sid),
       Action.emitConn sess.host (EventMsg.viewerJoined v)] ∧
    lookupSession (joinSession st v sid).2 sid =
      some { sess with viewers := sess.viewers ++ [v] } ∧
    (sess.viewers ++ [v]).count v = sess.viewers.count v + 1 := by
  refine ⟨?_, ?_, ?_⟩
  · simp [joinSession, h]
  · simp only [joinSession, h]
    exact lookupSession_update_some _ h
  · simp

/-- Witness for the amended C2 theorem at a concrete registry. -/
theorem joinSession_appends_viewer_witness :
    (joinSession [("s", Session.mk "s" "h" [] 0)] "v" "s").1 =
      [Action.emitConn "v" (EventMsg.sessionJoined "s"),
       Action.emitConn (Session.mk "s" "h" [] 0).host (EventMsg.viewerJoined "v")] ∧
    lookupSession (joinSession [("s", Session.mk "s" "h" [] 0)] "v" "s").2 "s" =
      some { Session.mk "s" "h" [] 0 with
               viewers := (Session.mk "s" "h" [] 0).viewers ++ ["v"] } ∧
    ((Session.mk "s" "h" [] 0).viewers ++ ["v"]).count "v" =
      (Session.mk "s" "h" [] 0).viewers.count "v" + 1 :=
  joinSession_appends_viewer _ "s" "v" _ (by decide)

/-- Claim C3: when a host connection disconnects, every current viewer of
the session it hosts gets exactly one `session-ended` event, the event is
emitted (immediately) before the `deleteSession` of that entry in the
action trace, the session is afterwards absent from the registry, and a
second disconnect run for the same connection id emits nothing and leaves
the registry unchanged. -/
theorem disconnect_host_session_ended
    (st : Registry) (connId sid : String) (sess : Session)
    (hnd : (st.map Prod.fst).Nodup)
    (hmem : (sid, sess) ∈ st)
    (hhost : sess.host = connId) :
    (∀ v, v ∈ sess.viewers → v ≠ connId →
       (disconnect st connId).1.countP (fun a => deliversSessionEnded v sid a) = 1) ∧
    (∃ pre post,
       (disconnect st connId).1 =
         pre ++ Action.emitRoom sid ((sess.viewers.dedup).filter (· ≠ connId))
                  (EventMsg.sessionEnded "Host has disconnected") ::
                Action.deleteSession sid :: post) ∧
    lookupSession (disconnect st connId).2 sid = none ∧
    disconnect (disconnect st connId).2 connId = ([], (disconnect st connId).2) :=
  ⟨disconnect_count_one st connId sid sess hnd hmem hhost,
   disconnect_decomp st connId sid sess hmem hhost,
   disconnect_lookup_none st connId sid sess hnd hmem hhost,
   disconnect_idem st connId⟩

/-- Witness for the C3 theorem: one session hosted by "h" with viewer "v". -/
theorem disconnect_host_session_ended_witness :
    (∀ v, v ∈ (Session.mk "s" "h" ["v"] 0).viewers → v ≠ "h" →
       (disconnect [("s", Session.mk "s" "h" ["v"] 0)] "h").1.countP
         (fun a => deliversSessionEnded v "s" a) = 1) ∧
    (∃ pre post,
       (disconnect [("s", Session.mk "s" "h" ["v"] 0)] "h").1 =
         pre ++ Action.emitRoom "s"
                  (((Session.mk "s" "h" ["v"] 0).viewers.dedup).filter (· ≠ "h"))
                  (EventMsg.sessionEnded "Host has disconnected") ::
                Action.deleteSession "s" :: post) ∧
    lookupSession (disconnect [("s", Session.mk "s" "h" ["v"] 0)] "h").2 "s" = none ∧
    disconnect (disconnect [("s", Session.mk "s" "h" ["v"] 0)] "h").2 "h" =
      ([], (disconnect [("s", Session.mk "s" "h" ["v"] 0)] "h").2) :=
  disconnect_host_session_ended [("s", Session.mk "s" "h" ["v"] 0)] "h" "s"
    (Session.mk "s" "h" ["v"] 0) (by decide) (by decide) rfl

/-- Claim C6: the `request-ocr` handler strips with `split(',')[1]` and
therefore rejects a raw base64 input that has no comma.  On an existing
session, the raw input "abc" is answered with the `Invalid image data`
error and the OCR engine is never invoked, while the same payload behind a
data-URL prefix is OCR'd and answered with `ocr-result`; the claim (and
the spec) says raw base64 must be accepted too. -/
theorem requestOcr_raw_base64_rejected :
    requestOcr [("s", Session.mk "s" "h" [] 0)] "h" "s" ['a', 'b', 'c']
        (OcrOutcome.ok ['H', 'I']) 7 =
      ([Action.emitConn "h" (EventMsg.errorEv "Invalid image data")],
       [("s", Session.mk "s" "h" [] 0)]) ∧
    requestOcr [("s", Session.mk "s" "h" [] 0)] "h" "s"
        ("px,".toList ++ ['a', 'b', 'c']) (OcrOutcome.ok ['H', 'I']) 7 =
      ([Action.invokeOcr ['a', 'b', 'c'],
        Action.emitConn "h" (EventMsg.ocrResult "s" 7 ['H', 'I'])],
       [("s", Session.mk "s" "h" [] 0)]) := by
  decide

/-- Claim C7: every counter of the metrics collector is monotonically
non-decreasing across any sequence of tool invocations (no operation
decrements anything), and each invocation bumps the total `requests`
counter and its own per-tool counter by exactly one. -/
theorem metrics_monotone_increment :
    (∀ (m : Metrics) (l : List ToolCall), metricsLe m (runCalls m l)) ∧
    (∀ (m : Metrics) (t : ToolCall),
       (metricsStep m t).requests = m.requests + 1 ∧
       ownCounter t (metricsStep m t) = ownCounter t m + 1) := by
  refine ⟨fun m l => runCalls_le l m, fun m t => ?_⟩
  cases t with
  | screenCaptureCall failed now =>
    cases failed <;> simp [metricsStep, ownCounter]
  | extractTextCall failed now =>
    cases failed <;> simp [metricsStep, ownCounter]
  | logActivityCall now =>
    simp [metricsStep, ownCounter]

/-- Claim C8: a `log_activity` call that supplies only a description
returns a success envelope whose entry has confidence, text length and
processing time all zero, and each optional numeric field independently
defaults to zero whenever it is omitted. -/
theorem logActivity_defaults_zero :
    (∀ (d : Str) (now : Nat),
       (logActivity d none none none now).success = true ∧
       (logActivity d none none none now).entry.confidence = 0 ∧
       (logActivity d none none none now).entry.screen_text_length = 0 ∧
       (logActivity d none none none now).entry.processing_time = 0) ∧
    (∀ (d : Str) (stl pt : Option ℚ) (now : Nat),
       (logActivity d none stl pt now).entry.confidence = 0) ∧
    (∀ (d : Str) (c pt : Option ℚ) (now : Nat),
       (logActivity d c none pt now).entry.screen_text_length = 0) ∧
    (∀ (d : Str) (c stl : Option ℚ) (now : Nat),
       (logActivity d c stl none now).entry.processing_time = 0) :=
  ⟨fun _ _ => ⟨rfl, rfl, rfl, rfl⟩, fun _ _ _ _ => rfl, fun _ _ _ _ => rfl,
   fun _ _ _ _ => rfl⟩

end ShopTheVideo
